import Mathlib

/-!
Verification development for the rbac-controller repository
(github.com/GGh41th/rbac-controller).

The development shallowly embeds the two core Go packages:

* `internal/parser/parser.go` — binding expansion: `Parser`,
  `parseSubjects`, `parseCRBs`, `parseRBs`, `Parse`,
  `retrieveNamespaces`;
* `internal/controller/rbacrule_controller.go` — the reconciliation
  state machine: `Reconcile`, `checkNamespace`, `createSA`,
  `createCRB`, `createCR`, `reconcileDelete`, `deleteBindings`,
  `deleteServiceAccounts`.

The Kubernetes object store is modelled as a pure `Cluster` value and
every store call (Get/List/Create/Update/Delete) as a pure operation
on it that succeeds; Go time values (`time.Time`, zero value = unset)
are modelled as `Nat` with `0` meaning the zero time.  Go's
`slices.Index` / `slices.Delete` are embedded with their exact
semantics (`-1` for a missing element; `Delete` panics on an invalid
range, modelled as `Option.none`).
-/

namespace RbacController

/-- Association-list lookup of a Kubernetes label map
(`map[string]string`): the value stored under a key, if any. -/
def getLabel (lbls : List (String × String)) (k : String) : Option String :=
  (lbls.find? (fun p => p.1 = k)).map (fun p => p.2)

/-- Label-selector requirement operator, after
`metav1.LabelSelectorOperator`.  `opInvalid` stands for an operator
value rejected by `metav1.LabelSelectorAsSelector`. -/
inductive SelOp where
  | opIn
  | opNotIn
  | opExists
  | opDoesNotExist
  | opInvalid
deriving DecidableEq, Repr

/-- One entry of `metav1.LabelSelector.MatchExpressions`. -/
structure MatchExpr where
  key : String
  op : SelOp
  values : List String
deriving DecidableEq, Repr

/-- Embedding of `metav1.LabelSelector`.  The Go `MatchLabels` map is
`nil`-able, and `retrieveNamespaces` branches on `MatchLabels != nil`,
so the embedding keeps the `Option`. -/
structure LabelSelector where
  matchLabels : Option (List (String × String)) := none
  matchExpressions : List MatchExpr := []
deriving DecidableEq, Repr

/-- Whether `metav1.LabelSelectorAsSelector` accepts the selector
(every requirement operator is a known one). -/
def selectorValid (ls : LabelSelector) : Bool :=
  ls.matchExpressions.all (fun e => e.op ≠ SelOp.opInvalid)

/-- One requirement's matching semantics, after
`labels.Requirement.Matches`. -/
def exprMatches (lbls : List (String × String)) (e : MatchExpr) : Bool :=
  match e.op with
  | SelOp.opIn => match getLabel lbls e.key with
    | some v => e.values.contains v
    | none => false
  | SelOp.opNotIn => match getLabel lbls e.key with
    | some v => ¬ e.values.contains v
    | none => true
  | SelOp.opExists => (getLabel lbls e.key).isSome
  | SelOp.opDoesNotExist => (getLabel lbls e.key).isNone
  | SelOp.opInvalid => false

/-- Whether a valid selector matches a label map: every `matchLabels`
pair is present and every match expression is satisfied. -/
def selectorMatches (ls : LabelSelector) (lbls : List (String × String)) : Bool :=
  ((ls.matchLabels.getD []).all (fun p => getLabel lbls p.1 = some p.2)) ∧
  ls.matchExpressions.all (exprMatches lbls)

/-- Namespace object metadata, as listed by the parser's
`PartialObjectMetadataList` and created by `checkNamespace`. -/
structure NamespaceMeta where
  name : String
  labels : List (String × String) := []
  ownerReferences : List String := []
deriving DecidableEq, Repr

namespace v1alpha1

/-- Subject kind enum of `api/v1alpha1` (`User`, `Group`,
`ServiceAccount`). -/
inductive SubjectType where
  | user
  | group
  | serviceAccount
deriving DecidableEq, Repr

/-- The API `Subject` of `api/v1alpha1`. -/
structure Subject where
  kind : SubjectType
  name : String
  namespaces : List String := []
  nameSpaceSelector : LabelSelector := {}
  namespaceMatchExpression : String := ""
deriving DecidableEq, Repr

/-- The API `RoleBinding` declaration of `api/v1alpha1` (a role
reference plus a namespace-selection rule). -/
structure RoleBinding where
  role : String := ""
  clusterRole : String := ""
  namespaces : List String := []
  nameSpaceSelector : LabelSelector := {}
  namespaceMatchExpression : String := ""
deriving DecidableEq, Repr

/-- The API `ClusterRoleBinding` declaration of `api/v1alpha1`. -/
structure ClusterRoleBinding where
  clusterRole : String
deriving DecidableEq, Repr

/-- The API `Binding` of `api/v1alpha1`. -/
structure Binding where
  name : String
  subjects : List Subject := []
  roleBindings : List RoleBinding := []
  clusterRoleBindings : List ClusterRoleBinding := []
deriving DecidableEq, Repr

/-- `RBACRuleSpec`.  `metav1.Time` is modelled as `Nat`, `0` being the
Go zero time (field unset). -/
structure RBACRuleSpec where
  bindings : List Binding := []
  startTime : Nat := 0
  endTime : Nat := 0
  createSA : Bool := true
deriving DecidableEq, Repr

/-- `RBACRuleStatus`: identifier lists of established role bindings
(`Namespace/Name` strings) and cluster role bindings (names). -/
structure RBACRuleStatus where
  roleBindings : List String := []
  clusterRoleBindings : List String := []
deriving DecidableEq, Repr

/-- The `RBACRule` custom resource with the object metadata the
controller reads: name, namespace, deletion timestamp and
finalizers. -/
structure RBACRule where
  name : String
  ruleNamespace : String := ""
  deletionTimestamp : Option Nat := none
  finalizers : List String := []
  spec : RBACRuleSpec := {}
  status : RBACRuleStatus := {}
deriving DecidableEq, Repr

end v1alpha1

namespace rbacv1

/-- A concrete `rbacv1.Subject` as built by the parser. -/
structure Subject where
  apiGroup : String
  kind : String
  name : String
  subjectNamespace : String
deriving DecidableEq, Repr

/-- A concrete `rbacv1.RoleRef`. -/
structure RoleRef where
  apiGroup : String
  kind : String
  name : String
deriving DecidableEq, Repr

/-- A concrete `rbacv1.RoleBinding` (the object-meta fields the
controller sets, plus subjects and role ref). -/
structure RoleBinding where
  name : String
  bindingNamespace : String
  labels : List (String × String) := []
  ownerReferences : List String := []
  subjects : List Subject := []
  roleRef : RoleRef
deriving DecidableEq, Repr

/-- A concrete `rbacv1.ClusterRoleBinding`. -/
structure ClusterRoleBinding where
  name : String
  labels : List (String × String) := []
  ownerReferences : List String := []
  subjects : List Subject := []
  roleRef : RoleRef
deriving DecidableEq, Repr

end rbacv1

/-- A `corev1.ServiceAccount` with the metadata `createSA` sets. -/
structure ServiceAccount where
  name : String
  saNamespace : String
  labels : List (String × String) := []
  ownerReferences : List String := []
deriving DecidableEq, Repr

/-- The modelled cluster object store: the objects the controller
reads and writes, with every store call succeeding. -/
structure Cluster where
  namespaces : List NamespaceMeta := []
  serviceAccounts : List ServiceAccount := []
  roleBindings : List rbacv1.RoleBinding := []
  clusterRoleBindings : List rbacv1.ClusterRoleBinding := []
deriving DecidableEq, Repr

/-- The constant `RBACApiGroup` of `internal/parser`. -/
def RBACApiGroup : String := "rbac.authorization.k8s.io"

/-- The constant `CRB` of `internal/parser` (a role-ref kind). -/
def CRB : String := "ClusterRole"

/-- The constant `RB` of `internal/parser` (a role-ref kind). -/
def RB : String := "Role"

/-- The finalizer constant of `internal/controller`. -/
def RBACRuleFinalizer : String := "rbac-controller.io/cleanup-rbac-rule"

/-- Modelled from the spec: the constant `constants.RBACRuleLabel`
(package `internal/constants` is not among the sources).  Per the
spec it is "a single well-known label key whose value ties every
generated object back to its owning RBACRule". -/
def RBACRuleLabel : String := "rbac-controller.io/rbac-rule"

/-- Modelled from the spec: `utils.GenerateName` (package
`internal/utils` is not among the sources).  Per the spec, generated
object names "are derived deterministically from (ruleName,
bindingName, objectKind, roleName)". -/
def GenerateName (ruleName bindingName objectKind roleName : String) : String :=
  ruleName ++ "-" ++ bindingName ++ "-" ++ objectKind ++ "-" ++ roleName

/-- The parser accumulator `parser.Parser` (its three output
slices). -/
structure Parser where
  subjects : List rbacv1.Subject := []
  roleBindings : List rbacv1.RoleBinding := []
  clusterRoleBindings : List rbacv1.ClusterRoleBinding := []
deriving DecidableEq, Repr

/-- Embedding of `Parser.retrieveNamespaces`: when the selector has
match expressions or a non-nil match-labels map it is converted (a
conversion failure is an error) and evaluated against all namespace
objects; otherwise no namespaces are listed and the empty list is
returned. -/
def retrieveNamespaces (cluster : List NamespaceMeta) (ls : LabelSelector) :
    Except String (List String) :=
  if ls.matchExpressions.length > 0 ∨ ls.matchLabels ≠ none then
    if selectorValid ls then
      Except.ok ((cluster.filter (fun n => selectorMatches ls n.labels)).map
        (fun n => n.name))
    else
      Except.error "failed to extract a selector from the label selector"
  else
    Except.ok []

/-- Embedding of `Parser.parseSubjects`.  User/Group subjects are
appended once, cluster-scoped; a ServiceAccount subject is appended
once per namespace of `retrieveNamespaces(selector) ++ explicit
list`; a resolver error returns immediately with the subjects
accumulated so far. -/
def parseSubjects (cluster : List NamespaceMeta) (p : Parser) :
    List v1alpha1.Subject → Parser × Option String
  | [] => (p, none)
  | s :: rest =>
    match s.kind with
    | v1alpha1.SubjectType.user =>
      parseSubjects cluster
        { p with subjects := p.subjects ++
            [{ apiGroup := RBACApiGroup, kind := "User", name := s.name,
               subjectNamespace := "" }] } rest
    | v1alpha1.SubjectType.group =>
      parseSubjects cluster
        { p with subjects := p.subjects ++
            [{ apiGroup := RBACApiGroup, kind := "Group", name := s.name,
               subjectNamespace := "" }] } rest
    | v1alpha1.SubjectType.serviceAccount =>
      match retrieveNamespaces cluster s.nameSpaceSelector with
      | Except.error e => (p, some e)
      | Except.ok resolved =>
        parseSubjects cluster
          { p with subjects := p.subjects ++
              (resolved ++ s.namespaces).map (fun n =>
                { apiGroup := "", kind := "ServiceAccount", name := s.name,
                  subjectNamespace := n }) } rest

/-- Embedding of `Parser.parseCRBs`: one `rbacv1.ClusterRoleBinding`
per declaration, named by `GenerateName` with kind `CRB`, carrying
the accumulated subject list. -/
def parseCRBs (ruleName bindingName : String)
    (crbs : List v1alpha1.ClusterRoleBinding)
    (lbls : List (String × String)) (ownerRef : List String)
    (p : Parser) : Parser :=
  { p with clusterRoleBindings := p.clusterRoleBindings ++
      crbs.map (fun crb =>
        { name := GenerateName ruleName bindingName CRB crb.clusterRole
          labels := lbls
          ownerReferences := ownerRef
          subjects := p.subjects
          roleRef := { apiGroup := RBACApiGroup, kind := CRB,
                       name := crb.clusterRole } }) }

/-- Embedding of `Parser.parseRBs`.  For each declaration the
namespace list is `retrieveNamespaces(selector) ++ explicit list`; a
non-empty `clusterRole` emits one RoleBinding per namespace (role-ref
kind `ClusterRole`), then a non-empty `role` emits one per namespace
(role-ref kind `Role`); both use `GenerateName` with kind `RB` and
carry the accumulated subject list.  A resolver error returns with
the role bindings accumulated so far. -/
def parseRBs (cluster : List NamespaceMeta) (ruleName bindingName : String)
    (lbls : List (String × String)) (ownerRef : List String) (p : Parser) :
    List v1alpha1.RoleBinding → Parser × Option String
  | [] => (p, none)
  | rb :: rest =>
    match retrieveNamespaces cluster rb.nameSpaceSelector with
    | Except.error e => (p, some e)
    | Except.ok resolved =>
      let ns := resolved ++ rb.namespaces
      let fromClusterRole : List rbacv1.RoleBinding :=
        if rb.clusterRole ≠ "" then
          ns.map (fun n =>
            { name := GenerateName ruleName bindingName RB rb.clusterRole
              bindingNamespace := n
              labels := lbls
              ownerReferences := ownerRef
              subjects := p.subjects
              roleRef := { apiGroup := RBACApiGroup, kind := CRB,
                           name := rb.clusterRole } })
        else []
      let fromRole : List rbacv1.RoleBinding :=
        if rb.role ≠ "" then
          ns.map (fun n =>
            { name := GenerateName ruleName bindingName RB rb.role
              bindingNamespace := n
              labels := lbls
              ownerReferences := ownerRef
              subjects := p.subjects
              roleRef := { apiGroup := RBACApiGroup, kind := RB,
                           name := rb.role } })
        else []
      parseRBs cluster ruleName bindingName lbls ownerRef
        { p with roleBindings := p.roleBindings ++ fromClusterRole ++ fromRole }
        rest

/-- Embedding of `Parser.Parse`: subjects, then cluster role
bindings, then role bindings; a subject-parsing error returns before
the binding lists are parsed, a role-binding error returns after the
cluster role bindings were appended. -/
def Parse (cluster : List NamespaceMeta) (binding : v1alpha1.Binding)
    (lbls : List (String × String)) (ownerRef : List String)
    (ruleName : String) (p : Parser) : Parser × Option String :=
  match (if binding.subjects.length > 0 then
      parseSubjects cluster p binding.subjects
    else (p, none)) with
  | (p, some e) => (p, some e)
  | (p, none) =>
    let p := if binding.clusterRoleBindings.length > 0 then
        parseCRBs ruleName binding.name binding.clusterRoleBindings lbls ownerRef p
      else p
    if binding.roleBindings.length > 0 then
      parseRBs cluster ruleName binding.name lbls ownerRef p binding.roleBindings
    else
      (p, none)

/-- Embedding of `RBACRuleReconciler.checkNamespace`: get the
namespace by name; when absent, create it with the owner references
only (no labels are set). -/
def checkNamespace (c : Cluster) (name : String) (ownerRef : List String) : Cluster :=
  if c.namespaces.any (fun n => n.name = name) then c
  else { c with namespaces := c.namespaces ++
    [{ name := name, labels := [], ownerReferences := ownerRef }] }

/-- Embedding of `RBACRuleReconciler.createSA`: create the service
account; on already-exists fall back to update (replace). -/
def createSA (c : Cluster) (name ns : String) (lbls : List (String × String))
    (ownerRef : List String) : Cluster :=
  let sa : ServiceAccount :=
    { name := name, saNamespace := ns, labels := lbls, ownerReferences := ownerRef }
  if c.serviceAccounts.any (fun x => x.name = name ∧ x.saNamespace = ns) then
    { c with serviceAccounts := c.serviceAccounts.map (fun x =>
        if x.name = name ∧ x.saNamespace = ns then sa else x) }
  else
    { c with serviceAccounts := c.serviceAccounts ++ [sa] }

/-- Embedding of `RBACRuleReconciler.createCRB`: create, falling back
to update (replace) on already-exists. -/
def createCRB (c : Cluster) (crb : rbacv1.ClusterRoleBinding) : Cluster :=
  if c.clusterRoleBindings.any (fun x => x.name = crb.name) then
    { c with clusterRoleBindings := c.clusterRoleBindings.map (fun x =>
        if x.name = crb.name then crb else x) }
  else
    { c with clusterRoleBindings := c.clusterRoleBindings ++ [crb] }

/-- Embedding of `RBACRuleReconciler.createCR`: create the role
binding, falling back to update (replace) on already-exists. -/
def createCR (c : Cluster) (rb : rbacv1.RoleBinding) : Cluster :=
  if c.roleBindings.any (fun x =>
      x.name = rb.name ∧ x.bindingNamespace = rb.bindingNamespace) then
    { c with roleBindings := c.roleBindings.map (fun x =>
        if x.name = rb.name ∧ x.bindingNamespace = rb.bindingNamespace then rb else x) }
  else
    { c with roleBindings := c.roleBindings ++ [rb] }

/-- The subjects loop of `Reconcile`: for every parsed subject of
kind ServiceAccount, ensure its namespace exists and upsert the
service account. -/
def applySubjects (lbls : List (String × String)) (ownerRef : List String)
    (c : Cluster) : List rbacv1.Subject → Cluster
  | [] => c
  | s :: rest =>
    if s.kind = "ServiceAccount" then
      applySubjects lbls ownerRef
        (createSA (checkNamespace c s.subjectNamespace ownerRef)
          s.name s.subjectNamespace lbls ownerRef) rest
    else
      applySubjects lbls ownerRef c rest

/-- The cluster-role-binding loop of `Reconcile`: upsert each object
and append its name to the status list when not yet recorded
(`slices.Index(status, name) == -1`). -/
def applyCRBs (c : Cluster) (st : List String) :
    List rbacv1.ClusterRoleBinding → Cluster × List String
  | [] => (c, st)
  | crb :: rest =>
    let c := createCRB c crb
    let st := if st.contains crb.name then st else st ++ [crb.name]
    applyCRBs c st rest

/-- The role-binding loop of `Reconcile`: upsert each object and
append `namespace ++ "/" ++ name` to the status list when not yet
recorded. -/
def applyRBs (c : Cluster) (st : List String) :
    List rbacv1.RoleBinding → Cluster × List String
  | [] => (c, st)
  | rb :: rest =>
    let c := createCR c rb
    let key := rb.bindingNamespace ++ "/" ++ rb.name
    let st := if st.contains key then st else st ++ [key]
    applyRBs c st rest

/-- The per-binding body of the `Reconcile` loop over
`Spec.Bindings`: parse the binding with a fresh parser (a parse
error is only logged), then apply subjects, cluster role bindings
and role bindings of the parser's (possibly partial) output. -/
def applyOneBinding (ruleName : String) (lbls : List (String × String))
    (ownerRef : List String) (c : Cluster) (st : v1alpha1.RBACRuleStatus)
    (b : v1alpha1.Binding) : Cluster × v1alpha1.RBACRuleStatus :=
  let parsed := Parse c.namespaces b lbls ownerRef ruleName {}
  let p := parsed.1
  let c := applySubjects lbls ownerRef c p.subjects
  let crbOut := applyCRBs c st.clusterRoleBindings p.clusterRoleBindings
  let rbOut := applyRBs crbOut.1 st.roleBindings p.roleBindings
  (rbOut.1, { roleBindings := rbOut.2, clusterRoleBindings := crbOut.2 })

/-- The `Reconcile` loop over `Spec.Bindings` (a parse failure in one
binding never stops the loop). -/
def applyBindings (ruleName : String) (lbls : List (String × String))
    (ownerRef : List String) (c : Cluster) (st : v1alpha1.RBACRuleStatus) :
    List v1alpha1.Binding → Cluster × v1alpha1.RBACRuleStatus
  | [] => (c, st)
  | b :: rest =>
    let out := applyOneBinding ruleName lbls ownerRef c st b
    applyBindings ruleName lbls ownerRef out.1 out.2 rest

/-- Go's `slices.Index`: the first index of the element, `-1` when it
does not occur. -/
def slicesIndex (s : List String) (x : String) : Int :=
  match s.findIdx? (fun y => y = x) with
  | some i => (i : Int)
  | none => -1

/-- Go's `slices.Delete(s, i, j)`: removes `s[i:j]`; an invalid range
(`i < 0`, `i > j` or `j > len(s)`) panics, modelled as `none`. -/
def slicesDelete (s : List String) (i j : Int) : Option (List String) :=
  if 0 ≤ i ∧ i ≤ j ∧ j ≤ (s.length : Int) then
    some (s.take i.toNat ++ s.drop j.toNat)
  else
    none

/-- The role-binding sweep loop of `deleteBindings`: delete each
listed object, then remove the status entry found by
`slices.Index(status.roleBindings, rb.Name)` with
`slices.Delete(status, i, i)`.  `none` models the Go panic from an
invalid `slices.Delete` range. -/
def deleteRBLoop (c : Cluster) (st : List String) :
    List rbacv1.RoleBinding → Option (Cluster × List String)
  | [] => some (c, st)
  | rb :: rest =>
    let c := { c with roleBindings := c.roleBindings.filter (fun x =>
        ¬ (x.name = rb.name ∧ x.bindingNamespace = rb.bindingNamespace)) }
    let i := slicesIndex st rb.name
    match slicesDelete st i i with
    | none => none
    | some st => deleteRBLoop c st rest

/-- The cluster-role-binding sweep loop of `deleteBindings`: delete
each listed object, then remove the status entry found by
`slices.Index(status.clusterRoleBindings, crb.Name)` with
`slices.Delete(status, i, i)`. -/
def deleteCRBLoop (c : Cluster) (st : List String) :
    List rbacv1.ClusterRoleBinding → Option (Cluster × List String)
  | [] => some (c, st)
  | crb :: rest =>
    let c := { c with clusterRoleBindings := c.clusterRoleBindings.filter (fun x =>
        ¬ x.name = crb.name) }
    let i := slicesIndex st crb.name
    match slicesDelete st i i with
    | none => none
    | some st => deleteCRBLoop c st rest

/-- Embedding of `RBACRuleReconciler.deleteBindings`: when
`status.roleBindings` is non-empty, list the RoleBindings matching
the label selector and run the sweep loop; then the same for
ClusterRoleBindings.  `lsValue` is the selector's value for the
`RBACRuleLabel` key. -/
def deleteBindings (c : Cluster) (rule : v1alpha1.RBACRule) (lsValue : String) :
    Option (Cluster × v1alpha1.RBACRule) :=
  let step1 : Option (Cluster × v1alpha1.RBACRule) :=
    if rule.status.roleBindings.length > 0 then
      let rbs := c.roleBindings.filter (fun rb =>
        getLabel rb.labels RBACRuleLabel = some lsValue)
      match deleteRBLoop c rule.status.roleBindings rbs with
      | none => none
      | some out =>
        some (out.1, { rule with status := { rule.status with roleBindings := out.2 } })
    else
      some (c, rule)
  match step1 with
  | none => none
  | some (c, rule) =>
    if rule.status.clusterRoleBindings.length > 0 then
      let crbs := c.clusterRoleBindings.filter (fun crb =>
        getLabel crb.labels RBACRuleLabel = some lsValue)
      match deleteCRBLoop c rule.status.clusterRoleBindings crbs with
      | none => none
      | some out =>
        some (out.1,
          { rule with status := { rule.status with clusterRoleBindings := out.2 } })
    else
      some (c, rule)

/-- Embedding of `RBACRuleReconciler.deleteServiceAccounts`: list the
service accounts matching the label selector and delete each
(not-found tolerated). -/
def deleteServiceAccounts (c : Cluster) (lsValue : String) : Cluster :=
  { c with serviceAccounts := c.serviceAccounts.filter (fun sa =>
      ¬ getLabel sa.labels RBACRuleLabel = some lsValue) }

/-- The label-selector value used by `reconcileDelete`:
`strings.Join([]string{Name, Namespace}, "-")`. -/
def sweepLabelValue (rule : v1alpha1.RBACRule) : String :=
  String.intercalate "-" [rule.name, rule.ruleNamespace]

/-- Embedding of `RBACRuleReconciler.reconcileDelete`: when the
finalizer is present, sweep bindings then service accounts using the
label selector `{RBACRuleLabel: Name ++ "-" ++ Namespace}`; in every
case remove the finalizer and update the rule.  `none` models a
panic inside the sweep. -/
def reconcileDelete (c : Cluster) (rule : v1alpha1.RBACRule) :
    Option (Cluster × v1alpha1.RBACRule) :=
  if rule.finalizers.contains RBACRuleFinalizer then
    match deleteBindings c rule (sweepLabelValue rule) with
    | none => none
    | some (c, rule) =>
      let c := deleteServiceAccounts c (sweepLabelValue rule)
      some (c, { rule with finalizers :=
        rule.finalizers.filter (fun f => f ≠ RBACRuleFinalizer) })
  else
    some (c, { rule with finalizers :=
      rule.finalizers.filter (fun f => f ≠ RBACRuleFinalizer) })

/-- The finalizer-attachment step at the top of `Reconcile`: when the
rule has no deletion timestamp and does not carry the finalizer, it
is added and the rule updated. -/
def attachFinalizer (rule : v1alpha1.RBACRule) : v1alpha1.RBACRule :=
  if rule.deletionTimestamp = none ∧ ¬ rule.finalizers.contains RBACRuleFinalizer then
    { rule with finalizers := rule.finalizers ++ [RBACRuleFinalizer] }
  else
    rule

/-- Outcome of one `Reconcile` invocation: the resulting store and
rule, the `RequeueAfter` duration when one was requested, and
whether the pass called `Delete` on the rule itself. -/
structure ReconcileOutput where
  cluster : Cluster
  rule : v1alpha1.RBACRule
  requeueAfter : Option Nat := none
  selfDeleted : Bool := false
deriving DecidableEq, Repr

/-- Embedding of `RBACRuleReconciler.Reconcile` at time `now` (store
calls succeed; `none` models a panic).  The phases, in source order:
finalizer attachment; the deletion path when a deletion timestamp is
set; the start-time gate (`start != zero && start.After(now)`
requeues after the remaining duration); the bindings loop; the
end-time gate (`end != zero && end.After(now)` requeues, `else if
end.Before(now)` deletes the rule itself). -/
def Reconcile (now : Nat) (c : Cluster) (rule0 : v1alpha1.RBACRule) :
    Option ReconcileOutput :=
  let rule := attachFinalizer rule0
  if rule.deletionTimestamp ≠ none then
    match reconcileDelete c rule with
    | none => none
    | some (c, rule) => some { cluster := c, rule := rule }
  else if rule.spec.startTime ≠ 0 ∧ now < rule.spec.startTime then
    some { cluster := c, rule := rule,
           requeueAfter := some (rule.spec.startTime - now) }
  else
    let out := applyBindings rule.name [(RBACRuleLabel, rule.name)] [rule.name]
      c rule.status rule.spec.bindings
    let c := out.1
    let rule := { rule with status := out.2 }
    if rule.spec.endTime ≠ 0 ∧ now < rule.spec.endTime then
      some { cluster := c, rule := rule,
             requeueAfter := some (rule.spec.endTime - now) }
    else if rule.spec.endTime < now then
      some { cluster := c, rule := rule, selfDeleted := true }
    else
      some { cluster := c, rule := rule }

/-! Helper lemmas about `attachFinalizer`. -/

theorem attachFinalizer_deletionTimestamp (rule : v1alpha1.RBACRule) :
    (attachFinalizer rule).deletionTimestamp = rule.deletionTimestamp := by
  unfold attachFinalizer
  split <;> rfl

theorem attachFinalizer_spec (rule : v1alpha1.RBACRule) :
    (attachFinalizer rule).spec = rule.spec := by
  unfold attachFinalizer
  split <;> rfl

theorem attachFinalizer_name (rule : v1alpha1.RBACRule) :
    (attachFinalizer rule).name = rule.name := by
  unfold attachFinalizer
  split <;> rfl

theorem attachFinalizer_status (rule : v1alpha1.RBACRule) :
    (attachFinalizer rule).status = rule.status := by
  unfold attachFinalizer
  split <;> rfl

/-- Claim C9: for every RBACRule whose `spec.startTime` is set and in
the future, reconciliation returns without touching the cluster (so
no generated object is created before `startTime`) and requests
re-invocation after exactly the remaining duration until
`startTime`. -/
theorem C9_start_gate (now : Nat) (c : Cluster) (rule : v1alpha1.RBACRule)
    (hdt : rule.deletionTimestamp = none)
    (hset : rule.spec.startTime ≠ 0)
    (hfut : now < rule.spec.startTime) :
    Reconcile now c rule =
      some { cluster := c, rule := attachFinalizer rule,
             requeueAfter := some (rule.spec.startTime - now) } := by
  simp [Reconcile, attachFinalizer_deletionTimestamp, attachFinalizer_spec, hdt,
    hset, hfut]

/-- Witness for C9 at a concrete input: a rule with `startTime = 10`
reconciled at `now = 3` requeues after `7` and leaves the cluster
untouched. -/
theorem C9_start_gate_witness :
    ({ name := "r", spec := { startTime := 10 } } : v1alpha1.RBACRule).deletionTimestamp = none ∧
    ({ name := "r", spec := { startTime := 10 } } : v1alpha1.RBACRule).spec.startTime ≠ 0 ∧
    3 < ({ name := "r", spec := { startTime := 10 } } : v1alpha1.RBACRule).spec.startTime ∧
    Reconcile 3 {} { name := "r", spec := { startTime := 10 } } =
      some { cluster := {},
             rule := attachFinalizer { name := "r", spec := { startTime := 10 } },
             requeueAfter := some 7 } :=
  ⟨rfl, by decide, by decide,
    C9_start_gate 3 {} { name := "r", spec := { startTime := 10 } } rfl (by decide) (by decide)⟩

/-- Claim C10 counterexample: a selector whose match-labels map is
present but empty (`matchLabels: {}`) also has no match labels and no
match expressions, yet `retrieveNamespaces` takes the
`MatchLabels != nil` branch, the selector converts to the
match-everything selector (zero requirements), and every namespace in
the cluster is returned — exactly the outcome the claim says never
happens. -/
theorem C10_nonnil_empty_map_counterexample :
    retrieveNamespaces [{ name := "n1" }, { name := "n2" }]
      { matchLabels := some [], matchExpressions := [] } =
      Except.ok ["n1", "n2"] := by
  rfl

/-- Claim C10 as amended: only the zero-valued selector (nil
match-labels map, no match expressions) resolves to the empty
namespace list regardless of the namespaces in the cluster — never
all namespaces; a selector with a present-but-empty match-labels map
instead converts to the match-everything selector and resolves to all
namespaces in the cluster. -/
theorem C10_empty_selector_resolves_empty (cluster : List NamespaceMeta) :
    retrieveNamespaces cluster { matchLabels := none, matchExpressions := [] } =
      Except.ok [] ∧
    retrieveNamespaces cluster { matchLabels := some [], matchExpressions := [] } =
      Except.ok (cluster.map (fun n => n.name)) := by
  constructor
  · simp [retrieveNamespaces]
  · simp [retrieveNamespaces, selectorValid, selectorMatches]

/-- Concrete scenario for claim C1: a cluster-scoped rule named `r`
whose creation pass labelled its objects with value `r` (the value
`Reconcile` uses is `RBACRule.Name`). -/
def mismatchRule : v1alpha1.RBACRule :=
  { name := "r", ruleNamespace := "", deletionTimestamp := some 1,
    finalizers := [RBACRuleFinalizer],
    status := { roleBindings := ["a/rb"] } }

/-- A cluster holding one RoleBinding carrying the ownership label
exactly as the creation pass writes it (`{RBACRuleLabel: "r"}`). -/
def mismatchCluster : Cluster :=
  { roleBindings := [{
      name := "rb", bindingNamespace := "a",
      labels := [(RBACRuleLabel, "r")],
      ownerReferences := ["r"],
      roleRef := { apiGroup := RBACApiGroup, kind := RB, name := "x" } }] }

/-- Claim C1 (failing input): the creation pass labels objects with
value `RBACRule.Name` but the deletion sweep selects on
`Name ++ "-" ++ Namespace`, so a successful deletion pass removes the
finalizer while the object carrying the creation-time ownership label
is still in the cluster — the sweep does not select the label value
applied at creation, violating cleanup completeness. -/
theorem C1_sweep_label_mismatch :
    sweepLabelValue mismatchRule ≠ "r" ∧
    sweepLabelValue mismatchRule = "r-" ∧
    mismatchCluster.roleBindings.map (fun rb => getLabel rb.labels RBACRuleLabel) =
      [some "r"] ∧
    (Reconcile 5 mismatchCluster mismatchRule).map (fun o =>
        (o.rule.finalizers,
         o.cluster.roleBindings.map (fun rb => getLabel rb.labels RBACRuleLabel))) =
      some ([], [some "r"]) := by
  refine ⟨?_, ?_, ?_, ?_⟩ <;> decide

/-- Concrete scenario for claim C2, cluster-role-binding half: the
status records `crb1` and the cluster holds a matching labelled
ClusterRoleBinding named `crb1`. -/
def staleStatusRule : v1alpha1.RBACRule :=
  { name := "r", finalizers := [RBACRuleFinalizer],
    status := { roleBindings := [], clusterRoleBindings := ["crb1"] } }

/-- The cluster for the cluster-role-binding half of claim C2. -/
def staleStatusCluster : Cluster :=
  { clusterRoleBindings := [{
      name := "crb1", labels := [(RBACRuleLabel, "r-")],
      roleRef := { apiGroup := RBACApiGroup, kind := CRB, name := "x" } }] }

/-- Concrete scenario for claim C2, role-binding half: the status
records `ns1/rb1` (the `Namespace/Name` form `Reconcile` writes) and
the cluster holds the matching labelled RoleBinding `rb1` in
`ns1`. -/
def panicStatusRule : v1alpha1.RBACRule :=
  { name := "r", finalizers := [RBACRuleFinalizer],
    status := { roleBindings := ["ns1/rb1"] } }

/-- The cluster for the role-binding half of claim C2. -/
def panicStatusCluster : Cluster :=
  { roleBindings := [{
      name := "rb1", bindingNamespace := "ns1",
      labels := [(RBACRuleLabel, "r-")],
      roleRef := { apiGroup := RBACApiGroup, kind := RB, name := "x" } }] }

/-- Claim C2 (failing input): the status-cleanup of `deleteBindings`
is wrong on both kinds.  For a successfully deleted
ClusterRoleBinding the code removes the zero-length range
`status[i:i]`, so the `crb1` entry is still in status after its
object was deleted; for a successfully deleted RoleBinding the code
looks up the bare object name in a status list that stores
`Namespace/Name` strings, gets index `-1`, and `slices.Delete(status,
-1, -1)` panics (modelled as `none`). -/
theorem C2_status_removal_bug :
    (deleteBindings staleStatusCluster staleStatusRule "r-").map (fun out =>
        (out.1.clusterRoleBindings.length, out.2.status.clusterRoleBindings)) =
      some (0, ["crb1"]) ∧
    deleteBindings panicStatusCluster panicStatusRule "r-" = none := by
  constructor <;> decide

/-- Concrete scenario for claim C3: a well-formed rule whose
`spec.endTime` is absent (the Go zero time, modelled as `0`). -/
def noEndTimeRule : v1alpha1.RBACRule :=
  { name := "r", finalizers := [RBACRuleFinalizer],
    spec := { bindings := [{
        name := "b",
        subjects := [{ kind := v1alpha1.SubjectType.user, name := "u" }],
        clusterRoleBindings := [{ clusterRole := "cr" }] }] } }

/-- Claim C3 (failing input): with `spec.endTime` absent (zero), the
zero time is before `now`, so the `else if end.Before(time.Now())`
branch fires and `Reconcile` deletes the resource itself — the code
auto-deletes a rule that should be active forever. -/
theorem C3_zero_endTime_self_delete :
    noEndTimeRule.spec.endTime = 0 ∧
    (Reconcile 1 {} noEndTimeRule).map (fun o => o.selfDeleted) = some true := by
  constructor <;> decide

/-! Helper lemmas about the parser accumulator. -/

theorem parseSubjects_roleBindings (cluster : List NamespaceMeta)
    (subs : List v1alpha1.Subject) : ∀ p : Parser,
    (parseSubjects cluster p subs).1.roleBindings = p.roleBindings := by
  induction subs with
  | nil => intro p; rfl
  | cons s rest ih =>
    intro p
    cases hk : s.kind
    · simp only [parseSubjects, hk]; exact ih _
    · simp only [parseSubjects, hk]; exact ih _
    · simp only [parseSubjects, hk]
      cases hr : retrieveNamespaces cluster s.nameSpaceSelector with
      | error e => rfl
      | ok resolved => exact ih _

theorem parseSubjects_clusterRoleBindings (cluster : List NamespaceMeta)
    (subs : List v1alpha1.Subject) : ∀ p : Parser,
    (parseSubjects cluster p subs).1.clusterRoleBindings = p.clusterRoleBindings := by
  induction subs with
  | nil => intro p; rfl
  | cons s rest ih =>
    intro p
    cases hk : s.kind
    · simp only [parseSubjects, hk]; exact ih _
    · simp only [parseSubjects, hk]; exact ih _
    · simp only [parseSubjects, hk]
      cases hr : retrieveNamespaces cluster s.nameSpaceSelector with
      | error e => rfl
      | ok resolved => exact ih _

theorem parseRBs_subjects (cluster : List NamespaceMeta)
    (ruleName bindingName : String) (lbls : List (String × String))
    (ownerRef : List String) (rbs : List v1alpha1.RoleBinding) : ∀ p : Parser,
    (parseRBs cluster ruleName bindingName lbls ownerRef p rbs).1.subjects =
      p.subjects := by
  induction rbs with
  | nil => intro p; rfl
  | cons rb rest ih =>
    intro p
    simp only [parseRBs]
    cases hr : retrieveNamespaces cluster rb.nameSpaceSelector with
    | error e => rfl
    | ok resolved => exact ih _

theorem parseRBs_clusterRoleBindings (cluster : List NamespaceMeta)
    (ruleName bindingName : String) (lbls : List (String × String))
    (ownerRef : List String) (rbs : List v1alpha1.RoleBinding) : ∀ p : Parser,
    (parseRBs cluster ruleName bindingName lbls ownerRef p rbs).1.clusterRoleBindings =
      p.clusterRoleBindings := by
  induction rbs with
  | nil => intro p; rfl
  | cons rb rest ih =>
    intro p
    simp only [parseRBs]
    cases hr : retrieveNamespaces cluster rb.nameSpaceSelector with
    | error e => rfl
    | ok resolved => exact ih _

/-- Every role binding in the output of `parseRBs` either was already
accumulated or is a freshly generated object: it carries the parser's
subject list, the given labels and owner references, and its name is
`GenerateName` applied to the rule name, binding name, the
role-binding kind constant and its own role-ref name. -/
theorem parseRBs_mem (cluster : List NamespaceMeta)
    (ruleName bindingName : String) (lbls : List (String × String))
    (ownerRef : List String) (rbs : List v1alpha1.RoleBinding) : ∀ p : Parser,
    ∀ rb ∈ (parseRBs cluster ruleName bindingName lbls ownerRef p rbs).1.roleBindings,
      rb ∈ p.roleBindings ∨
      (rb.subjects = p.subjects ∧ rb.labels = lbls ∧ rb.ownerReferences = ownerRef ∧
       rb.name = GenerateName ruleName bindingName RB rb.roleRef.name) := by
  induction rbs with
  | nil => intro p rb hmem; exact Or.inl hmem
  | cons rbSpec rest ih =>
    intro p rb hmem
    rw [parseRBs] at hmem
    cases hr : retrieveNamespaces cluster rbSpec.nameSpaceSelector with
    | error e =>
      rw [hr] at hmem
      exact Or.inl hmem
    | ok resolved =>
      rw [hr] at hmem
      rcases ih _ rb hmem with hin | hnew
      · simp only [List.mem_append] at hin
        rcases hin with (hin | hin) | hin
        · exact Or.inl hin
        · right
          by_cases hcr : rbSpec.clusterRole ≠ ""
          · simp only [if_pos hcr, List.mem_map] at hin
            obtain ⟨n, _, hx⟩ := hin
            subst hx
            exact ⟨rfl, rfl, rfl, rfl⟩
          · simp only [if_neg hcr] at hin
            exact absurd hin (List.not_mem_nil rb)
        · right
          by_cases hro : rbSpec.role ≠ ""
          · simp only [if_pos hro, List.mem_map] at hin
            obtain ⟨n, _, hx⟩ := hin
            subst hx
            exact ⟨rfl, rfl, rfl, rfl⟩
          · simp only [if_neg hro] at hin
            exact absurd hin (List.not_mem_nil rb)
      · exact Or.inr hnew

/-- Every cluster role binding in the output of `parseCRBs` either was
already accumulated or carries the parser's subject list, the given
labels and owner references, and a `GenerateName`-derived name. -/
theorem parseCRBs_mem (ruleName bindingName : String)
    (crbs : List v1alpha1.ClusterRoleBinding) (lbls : List (String × String))
    (ownerRef : List String) (p : Parser) :
    ∀ crb ∈ (parseCRBs ruleName bindingName crbs lbls ownerRef p).clusterRoleBindings,
      crb ∈ p.clusterRoleBindings ∨
      (crb.subjects = p.subjects ∧ crb.labels = lbls ∧ crb.ownerReferences = ownerRef ∧
       crb.name = GenerateName ruleName bindingName CRB crb.roleRef.name) := by
  intro crb hmem
  simp only [parseCRBs, List.mem_append, List.mem_map] at hmem
  rcases hmem with hin | ⟨spec, _, hx⟩
  · exact Or.inl hin
  · subst hx
    exact Or.inr ⟨rfl, rfl, rfl, rfl⟩

/-- Concrete scenario for claim C6: a ServiceAccount subject with
explicit namespace list `[a]` and a selector that also matches `a`. -/
def dupSubject : v1alpha1.Subject :=
  { kind := v1alpha1.SubjectType.serviceAccount, name := "sa",
    namespaces := ["a"],
    nameSpaceSelector := { matchLabels := some [("e", "d")] } }

/-- The cluster for claim C6's counterexample: one namespace `a`
labelled so the selector matches it. -/
def dupCluster : List NamespaceMeta := [{ name := "a", labels := [("e", "d")] }]

/-- Claim C6 counterexample: with explicit `namespaces: [a]` and a
selector also resolving to `{a}`, the deduplicated union would be
`{a}` (one namespace), but the expansion emits the subject twice —
the namespace list used is `["a", "a"]`, so the Expander does not
deduplicate the final set. -/
theorem C6_no_dedup_counterexample :
    retrieveNamespaces dupCluster dupSubject.nameSpaceSelector = Except.ok ["a"] ∧
    (parseSubjects dupCluster {} [dupSubject]).1.subjects.map
        (fun s => s.subjectNamespace) = ["a", "a"] := by
  exact ⟨rfl, by decide⟩

/-- Claim C6 as amended: for a ServiceAccount subject (and likewise a
role-binding declaration) with both an explicit namespace list and a
resolvable selector, the namespace list used for expansion is the
selector-resolved list followed by the explicit list (no
deduplication); set-wise, a namespace is used exactly when it is in
the explicit list or matched by the selector — the union of the
two. -/
theorem C6_namespace_union (cluster : List NamespaceMeta) (p : Parser)
    (s : v1alpha1.Subject) (resolved : List String)
    (hk : s.kind = v1alpha1.SubjectType.serviceAccount)
    (hr : retrieveNamespaces cluster s.nameSpaceSelector = Except.ok resolved) :
    ((parseSubjects cluster p [s]).1.subjects.drop p.subjects.length).map
        (fun subj => subj.subjectNamespace) = resolved ++ s.namespaces ∧
    (∀ n : String,
      n ∈ ((parseSubjects cluster p [s]).1.subjects.drop p.subjects.length).map
          (fun subj => subj.subjectNamespace) ↔ (n ∈ resolved ∨ n ∈ s.namespaces)) ∧
    ∀ (ruleName bindingName : String) (lbls : List (String × String))
      (ownerRef : List String) (rbSpec : v1alpha1.RoleBinding)
      (resolved2 : List String),
      rbSpec.role ≠ "" → rbSpec.clusterRole = "" →
      retrieveNamespaces cluster rbSpec.nameSpaceSelector = Except.ok resolved2 →
      ((parseRBs cluster ruleName bindingName lbls ownerRef p
          [rbSpec]).1.roleBindings.drop p.roleBindings.length).map
        (fun rb => rb.bindingNamespace) = resolved2 ++ rbSpec.namespaces := by
  have key : (parseSubjects cluster p [s]).1.subjects =
      p.subjects ++ (resolved ++ s.namespaces).map (fun n =>
        { apiGroup := "", kind := "ServiceAccount", name := s.name,
          subjectNamespace := n }) := by
    simp only [parseSubjects, hk, hr]
  have hdrop : ((parseSubjects cluster p [s]).1.subjects.drop p.subjects.length).map
      (fun subj => subj.subjectNamespace) = resolved ++ s.namespaces := by
    have hfun : ((fun subj : rbacv1.Subject => subj.subjectNamespace) ∘ fun n =>
        ({ apiGroup := "", kind := "ServiceAccount", name := s.name,
           subjectNamespace := n } : rbacv1.Subject)) = id := by
      funext n
      rfl
    rw [key, List.drop_left, List.map_map, hfun, List.map_id]
  refine ⟨hdrop, fun n => ?_, ?_⟩
  · rw [hdrop, List.mem_append]
  · intro ruleName bindingName lbls ownerRef rbSpec resolved2 hro hcr hr2
    have hcr' : ¬ rbSpec.clusterRole ≠ "" := by
      simp [hcr]
    have hfun : ((fun rb : rbacv1.RoleBinding => rb.bindingNamespace) ∘ fun n =>
        ({ name := GenerateName ruleName bindingName RB rbSpec.role,
           bindingNamespace := n, labels := lbls, ownerReferences := ownerRef,
           subjects := p.subjects,
           roleRef := { apiGroup := RBACApiGroup, kind := RB,
                        name := rbSpec.role } } : rbacv1.RoleBinding)) = id := by
      funext n
      rfl
    simp only [parseRBs, hr2, if_neg hcr', if_pos hro, List.append_nil]
    rw [List.drop_left, List.map_map, hfun, List.map_id]

/-- Witness for C6's amended theorem at the concrete `dupSubject`
scenario. -/
theorem C6_namespace_union_witness :
    dupSubject.kind = v1alpha1.SubjectType.serviceAccount ∧
    retrieveNamespaces dupCluster dupSubject.nameSpaceSelector = Except.ok ["a"] ∧
    ((parseSubjects dupCluster {} [dupSubject]).1.subjects.drop
        (Parser.subjects {}).length).map (fun subj => subj.subjectNamespace) =
      ["a"] ++ dupSubject.namespaces :=
  ⟨rfl, rfl, (C6_namespace_union dupCluster {} dupSubject ["a"] rfl rfl).1⟩

/-- Concrete scenario for claim C7: one role-binding declaration with
`role` and `clusterRole` both set to the same name `x`. -/
def collisionBinding : v1alpha1.Binding :=
  { name := "b",
    roleBindings := [{ role := "x", clusterRole := "x", namespaces := ["a"] }] }

/-- Claim C7 counterexample: expanding `collisionBinding` yields two
distinct RoleBindings (their role refs differ: `ClusterRole x` versus
`Role x`) that share both name and namespace — generated names are
not collision-free within one resource, because the name derivation
uses the role-binding kind constant `RB` for both the `role` and the
`clusterRole` field of the same declaration. -/
theorem C7_name_collision_counterexample :
    ((Parse [] collisionBinding [] [] "r" {}).1.roleBindings.map
        (fun rb => (rb.name, rb.bindingNamespace))) =
      [("r-b-Role-x", "a"), ("r-b-Role-x", "a")] ∧
    (Parse [] collisionBinding [] [] "r" {}).1.roleBindings[0]? ≠
      (Parse [] collisionBinding [] [] "r" {}).1.roleBindings[1]? := by
  constructor <;> decide

/-- Claim C7 as amended: generated object names are a deterministic
function of (rule name, binding name, object-kind constant, role-ref
name) — every role binding emitted by `parseRBs` is named
`GenerateName ruleName bindingName RB` of its role-ref name, and
every cluster role binding emitted by `parseCRBs` is named
`GenerateName ruleName bindingName CRB` of its role-ref name (so
re-expansion reproduces the same names); but the names are not
collision-free within one resource (see the counterexample). -/
theorem C7_names_deterministic (cluster : List NamespaceMeta)
    (ruleName bindingName : String) (lbls : List (String × String))
    (ownerRef : List String) (rbs : List v1alpha1.RoleBinding)
    (crbs : List v1alpha1.ClusterRoleBinding) (p : Parser) :
    (∀ rb ∈ (parseRBs cluster ruleName bindingName lbls ownerRef p rbs).1.roleBindings,
        rb ∈ p.roleBindings ∨
        rb.name = GenerateName ruleName bindingName RB rb.roleRef.name) ∧
    (∀ crb ∈ (parseCRBs ruleName bindingName crbs lbls ownerRef p).clusterRoleBindings,
        crb ∈ p.clusterRoleBindings ∨
        crb.name = GenerateName ruleName bindingName CRB crb.roleRef.name) := by
  constructor
  · intro rb hmem
    rcases parseRBs_mem cluster ruleName bindingName lbls ownerRef rbs p rb hmem with
      hin | ⟨_, _, _, hname⟩
    · exact Or.inl hin
    · exact Or.inr hname
  · intro crb hmem
    rcases parseCRBs_mem ruleName bindingName crbs lbls ownerRef p crb hmem with
      hin | ⟨_, _, _, hname⟩
    · exact Or.inl hin
    · exact Or.inr hname

/-- The length of the namespace list `parseRBs` builds for one
role-binding declaration: the selector-resolved list followed by the
explicit list (zero when the selector fails). -/
def nsListLength (cluster : List NamespaceMeta) (rb : v1alpha1.RoleBinding) : Nat :=
  match retrieveNamespaces cluster rb.nameSpaceSelector with
  | Except.ok resolved => (resolved ++ rb.namespaces).length
  | Except.error _ => 0

/-- How many of the two role fields of a role-binding declaration are
non-empty. -/
def roleFieldCount (rb : v1alpha1.RoleBinding) : Nat :=
  (if rb.clusterRole ≠ "" then 1 else 0) + (if rb.role ≠ "" then 1 else 0)

/-- When `parseRBs` succeeds it emits, per declaration, one
RoleBinding per resolved namespace per non-empty role field. -/
theorem parseRBs_length (cluster : List NamespaceMeta)
    (ruleName bindingName : String) (lbls : List (String × String))
    (ownerRef : List String) (rbs : List v1alpha1.RoleBinding) :
    ∀ p p' : Parser,
    parseRBs cluster ruleName bindingName lbls ownerRef p rbs = (p', none) →
    p'.roleBindings.length = p.roleBindings.length +
      (rbs.map (fun rb => nsListLength cluster rb * roleFieldCount rb)).sum := by
  induction rbs with
  | nil =>
    intro p p' h
    cases h
    simp
  | cons rbSpec rest ih =>
    intro p p' h
    rw [parseRBs] at h
    cases hr : retrieveNamespaces cluster rbSpec.nameSpaceSelector with
    | error e =>
      rw [hr] at h
      cases h
    | ok resolved =>
      rw [hr] at h
      have step := ih _ _ h
      have hlen : nsListLength cluster rbSpec =
          (resolved ++ rbSpec.namespaces).length := by
        simp [nsListLength, hr]
      simp only [List.map_cons, List.sum_cons, List.length_append] at step ⊢
      rw [step, hlen, roleFieldCount]
      by_cases hcr : rbSpec.clusterRole ≠ "" <;>
        by_cases hro : rbSpec.role ≠ "" <;>
          simp [hcr, hro, List.length_append] <;> ring

/-- Claim C5: for every binding, a successful `parseRBs` emits one
RoleBinding per resolved namespace per non-empty role field of each
declaration (both fields set gives two per namespace), `parseCRBs`
emits one ClusterRoleBinding per declaration, and every emitted
RoleBinding and ClusterRoleBinding carries the parser's full
expanded subject list (which `parseRBs` leaves unchanged). -/
theorem C5_expansion_cross_product (cluster : List NamespaceMeta)
    (ruleName bindingName : String) (lbls : List (String × String))
    (ownerRef : List String) (rbs : List v1alpha1.RoleBinding)
    (crbs : List v1alpha1.ClusterRoleBinding) (p p' : Parser)
    (h : parseRBs cluster ruleName bindingName lbls ownerRef p rbs = (p', none)) :
    p'.subjects = p.subjects ∧
    p'.roleBindings.length = p.roleBindings.length +
      (rbs.map (fun rb => nsListLength cluster rb * roleFieldCount rb)).sum ∧
    (∀ rb ∈ p'.roleBindings, rb ∈ p.roleBindings ∨ rb.subjects = p.subjects) ∧
    (parseCRBs ruleName bindingName crbs lbls ownerRef p).clusterRoleBindings.length =
      p.clusterRoleBindings.length + crbs.length ∧
    (∀ crb ∈ (parseCRBs ruleName bindingName crbs lbls ownerRef p).clusterRoleBindings,
      crb ∈ p.clusterRoleBindings ∨ crb.subjects = p.subjects) := by
  refine ⟨?_, ?_, ?_, ?_, ?_⟩
  · have := parseRBs_subjects cluster ruleName bindingName lbls ownerRef rbs p
    rw [h] at this
    exact this
  · exact parseRBs_length cluster ruleName bindingName lbls ownerRef rbs p p' h
  · intro rb hmem
    have hmem' : rb ∈ (parseRBs cluster ruleName bindingName lbls ownerRef
        p rbs).1.roleBindings := by
      rw [h]
      exact hmem
    rcases parseRBs_mem cluster ruleName bindingName lbls ownerRef rbs p rb hmem' with
      hin | ⟨hsub, _, _, _⟩
    · exact Or.inl hin
    · exact Or.inr hsub
  · simp [parseCRBs]
  · intro crb hmem
    rcases parseCRBs_mem ruleName bindingName crbs lbls ownerRef p crb hmem with
      hin | ⟨hsub, _, _, _⟩
    · exact Or.inl hin
    · exact Or.inr hsub

/-- The role-binding declaration of C5's witness: both `role` and
`clusterRole` set, with two explicit namespaces. -/
def bothFieldsSpec : v1alpha1.RoleBinding :=
  { role := "r1", clusterRole := "c1", namespaces := ["a", "b"] }

/-- Witness for C5 at a concrete input: one declaration with both
role fields set and two namespaces yields four RoleBindings. -/
theorem C5_expansion_cross_product_witness :
    (parseRBs [] "r" "b" [] [] {} [bothFieldsSpec] =
      ((parseRBs [] "r" "b" [] [] {} [bothFieldsSpec]).1, none)) ∧
    ((parseRBs [] "r" "b" [] [] {} [bothFieldsSpec]).1.subjects =
        (Parser.subjects {}) ∧
      (parseRBs [] "r" "b" [] [] {} [bothFieldsSpec]).1.roleBindings.length =
        (Parser.roleBindings {}).length +
          ([bothFieldsSpec].map (fun rb =>
            nsListLength [] rb * roleFieldCount rb)).sum ∧
      (∀ rb ∈ (parseRBs [] "r" "b" [] [] {} [bothFieldsSpec]).1.roleBindings,
        rb ∈ (Parser.roleBindings {}) ∨ rb.subjects = (Parser.subjects {})) ∧
      (parseCRBs "r" "b" [] [] [] {}).clusterRoleBindings.length =
        (Parser.clusterRoleBindings {}).length + ([] : List v1alpha1.ClusterRoleBinding).length ∧
      (∀ crb ∈ (parseCRBs "r" "b" [] [] [] {}).clusterRoleBindings,
        crb ∈ (Parser.clusterRoleBindings {}) ∨ crb.subjects = (Parser.subjects {}))) :=
  ⟨rfl, C5_expansion_cross_product [] "r" "b" [] [] [bothFieldsSpec] [] {} _ rfl⟩

/-- Relation between an input and an output cluster: every service
account, role binding and cluster role binding of the output either
was already present in the input or carries exactly the given label
set. -/
def NewObjsLabelled (c c' : Cluster) (lbls : List (String × String)) : Prop :=
  (∀ sa ∈ c'.serviceAccounts, sa ∈ c.serviceAccounts ∨ sa.labels = lbls) ∧
  (∀ rb ∈ c'.roleBindings, rb ∈ c.roleBindings ∨ rb.labels = lbls) ∧
  (∀ crb ∈ c'.clusterRoleBindings, crb ∈ c.clusterRoleBindings ∨ crb.labels = lbls)

theorem NewObjsLabelled.rfl (c : Cluster) (lbls : List (String × String)) :
    NewObjsLabelled c c lbls :=
  ⟨fun _ h => Or.inl h, fun _ h => Or.inl h, fun _ h => Or.inl h⟩

theorem NewObjsLabelled.trans {c c' c'' : Cluster} {lbls : List (String × String)}
    (h1 : NewObjsLabelled c c' lbls) (h2 : NewObjsLabelled c' c'' lbls) :
    NewObjsLabelled c c'' lbls := by
  refine ⟨fun x hx => ?_, fun x hx => ?_, fun x hx => ?_⟩
  · rcases h2.1 x hx with hin | hl
    · exact h1.1 x hin
    · exact Or.inr hl
  · rcases h2.2.1 x hx with hin | hl
    · exact h1.2.1 x hin
    · exact Or.inr hl
  · rcases h2.2.2 x hx with hin | hl
    · exact h1.2.2 x hin
    · exact Or.inr hl

theorem checkNamespace_newObjs (c : Cluster) (name : String)
    (ownerRef : List String) (lbls : List (String × String)) :
    NewObjsLabelled c (checkNamespace c name ownerRef) lbls := by
  unfold checkNamespace
  split
  · exact NewObjsLabelled.rfl c lbls
  · exact ⟨fun _ h => Or.inl h, fun _ h => Or.inl h, fun _ h => Or.inl h⟩

theorem createSA_newObjs (c : Cluster) (name ns : String)
    (lbls : List (String × String)) (ownerRef : List String) :
    NewObjsLabelled c (createSA c name ns lbls ownerRef) lbls := by
  unfold createSA
  split
  · refine ⟨fun x hx => ?_, fun _ h => Or.inl h, fun _ h => Or.inl h⟩
    simp only [List.mem_map] at hx
    obtain ⟨y, hy, hxy⟩ := hx
    by_cases hkey : y.name = name ∧ y.saNamespace = ns
    · rw [if_pos hkey] at hxy
      exact Or.inr (hxy ▸ Eq.refl lbls)
    · rw [if_neg hkey] at hxy
      exact Or.inl (hxy ▸ hy)
  · refine ⟨fun x hx => ?_, fun _ h => Or.inl h, fun _ h => Or.inl h⟩
    rcases List.mem_append.mp hx with hin | hnew
    · exact Or.inl hin
    · rw [List.mem_singleton] at hnew
      exact Or.inr (hnew ▸ Eq.refl lbls)

theorem createCR_newObjs (c : Cluster) (rb : rbacv1.RoleBinding)
    (lbls : List (String × String)) (hl : rb.labels = lbls) :
    NewObjsLabelled c (createCR c rb) lbls := by
  unfold createCR
  split
  · refine ⟨fun _ h => Or.inl h, fun x hx => ?_, fun _ h => Or.inl h⟩
    simp only [List.mem_map] at hx
    obtain ⟨y, hy, hxy⟩ := hx
    by_cases hkey : y.name = rb.name ∧ y.bindingNamespace = rb.bindingNamespace
    · rw [if_pos hkey] at hxy
      exact Or.inr (hxy ▸ hl)
    · rw [if_neg hkey] at hxy
      exact Or.inl (hxy ▸ hy)
  · refine ⟨fun _ h => Or.inl h, fun x hx => ?_, fun _ h => Or.inl h⟩
    rcases List.mem_append.mp hx with hin | hnew
    · exact Or.inl hin
    · rw [List.mem_singleton] at hnew
      exact Or.inr (hnew ▸ hl)

theorem createCRB_newObjs (c : Cluster) (crb : rbacv1.ClusterRoleBinding)
    (lbls : List (String × String)) (hl : crb.labels = lbls) :
    NewObjsLabelled c (createCRB c crb) lbls := by
  unfold createCRB
  split
  · refine ⟨fun _ h => Or.inl h, fun _ h => Or.inl h, fun x hx => ?_⟩
    simp only [List.mem_map] at hx
    obtain ⟨y, hy, hxy⟩ := hx
    by_cases hkey : y.name = crb.name
    · rw [if_pos hkey] at hxy
      exact Or.inr (hxy ▸ hl)
    · rw [if_neg hkey] at hxy
      exact Or.inl (hxy ▸ hy)
  · refine ⟨fun _ h => Or.inl h, fun _ h => Or.inl h, fun x hx => ?_⟩
    rcases List.mem_append.mp hx with hin | hnew
    · exact Or.inl hin
    · rw [List.mem_singleton] at hnew
      exact Or.inr (hnew ▸ hl)

theorem applySubjects_newObjs (lbls : List (String × String))
    (ownerRef : List String) (subs : List rbacv1.Subject) : ∀ c : Cluster,
    NewObjsLabelled c (applySubjects lbls ownerRef c subs) lbls := by
  induction subs with
  | nil => intro c; exact NewObjsLabelled.rfl c lbls
  | cons s rest ih =>
    intro c
    rw [applySubjects]
    split
    · exact NewObjsLabelled.trans
        (NewObjsLabelled.trans
          (checkNamespace_newObjs c s.subjectNamespace ownerRef lbls)
          (createSA_newObjs _ s.name s.subjectNamespace lbls ownerRef))
        (ih _)
    · exact ih c

theorem applyCRBs_newObjs (lbls : List (String × String))
    (crbs : List rbacv1.ClusterRoleBinding)
    (hl : ∀ crb ∈ crbs, crb.labels = lbls) : ∀ (c : Cluster) (st : List String),
    NewObjsLabelled c (applyCRBs c st crbs).1 lbls := by
  induction crbs with
  | nil => intro c st; exact NewObjsLabelled.rfl c lbls
  | cons crb rest ih =>
    intro c st
    rw [applyCRBs]
    exact NewObjsLabelled.trans
      (createCRB_newObjs c crb lbls (hl crb (List.mem_cons_self crb rest)))
      (ih (fun x hx => hl x (List.mem_cons_of_mem crb hx)) _ _)

theorem applyRBs_newObjs (lbls : List (String × String))
    (rbs : List rbacv1.RoleBinding)
    (hl : ∀ rb ∈ rbs, rb.labels = lbls) : ∀ (c : Cluster) (st : List String),
    NewObjsLabelled c (applyRBs c st rbs).1 lbls := by
  induction rbs with
  | nil => intro c st; exact NewObjsLabelled.rfl c lbls
  | cons rb rest ih =>
    intro c st
    rw [applyRBs]
    exact NewObjsLabelled.trans
      (createCR_newObjs c rb lbls (hl rb (List.mem_cons_self rb rest)))
      (ih (fun x hx => hl x (List.mem_cons_of_mem rb hx)) _ _)

/-- Every role binding produced by `Parse` from a fresh parser
carries exactly the labels passed in. -/
theorem Parse_roleBindings_labels (cluster : List NamespaceMeta)
    (b : v1alpha1.Binding) (lbls : List (String × String))
    (ownerRef : List String) (ruleName : String) :
    ∀ rb ∈ (Parse cluster b lbls ownerRef ruleName {}).1.roleBindings,
      rb.labels = lbls := by
  intro rb hmem
  rw [Parse] at hmem
  rcases hq : (if b.subjects.length > 0 then
      parseSubjects cluster {} b.subjects else ({}, none)) with ⟨p1, e1⟩
  have hp1 : p1.roleBindings = [] := by
    rcases Nat.lt_or_ge 0 b.subjects.length with hlen | hlen
    · rw [if_pos hlen] at hq
      have := parseSubjects_roleBindings cluster b.subjects {}
      rw [hq] at this
      exact this
    · rw [if_neg (Nat.not_lt.mpr hlen)] at hq
      cases hq
      rfl
  rw [hq] at hmem
  cases e1 with
  | some err =>
    simp only at hmem
    rw [hp1] at hmem
    exact absurd hmem (List.not_mem_nil rb)
  | none =>
    simp only at hmem
    rcases Nat.lt_or_ge 0 b.roleBindings.length with hlen | hlen
    · rw [if_pos hlen] at hmem
      have hp2 : (if b.clusterRoleBindings.length > 0 then
          parseCRBs ruleName b.name b.clusterRoleBindings lbls ownerRef p1
          else p1).roleBindings = [] := by
        split
        · exact hp1
        · exact hp1
      rcases parseRBs_mem cluster ruleName b.name lbls ownerRef b.roleBindings _
          rb hmem with hin | ⟨_, hlbl, _, _⟩
      · rw [hp2] at hin
        exact absurd hin (List.not_mem_nil rb)
      · exact hlbl
    · rw [if_neg (Nat.not_lt.mpr hlen)] at hmem
      simp only at hmem
      have hp2 : (if b.clusterRoleBindings.length > 0 then
          parseCRBs ruleName b.name b.clusterRoleBindings lbls ownerRef p1
          else p1).roleBindings = [] := by
        split
        · exact hp1
        · exact hp1
      rw [hp2] at hmem
      exact absurd hmem (List.not_mem_nil rb)

/-- Every cluster role binding produced by `Parse` from a fresh
parser carries exactly the labels passed in. -/
theorem Parse_clusterRoleBindings_labels (cluster : List NamespaceMeta)
    (b : v1alpha1.Binding) (lbls : List (String × String))
    (ownerRef : List String) (ruleName : String) :
    ∀ crb ∈ (Parse cluster b lbls ownerRef ruleName {}).1.clusterRoleBindings,
      crb.labels = lbls := by
  intro crb hmem
  rw [Parse] at hmem
  rcases hq : (if b.subjects.length > 0 then
      parseSubjects cluster {} b.subjects else ({}, none)) with ⟨p1, e1⟩
  have hp1 : p1.clusterRoleBindings = [] := by
    rcases Nat.lt_or_ge 0 b.subjects.length with hlen | hlen
    · rw [if_pos hlen] at hq
      have := parseSubjects_clusterRoleBindings cluster b.subjects {}
      rw [hq] at this
      exact this
    · rw [if_neg (Nat.not_lt.mpr hlen)] at hq
      cases hq
      rfl
  rw [hq] at hmem
  cases e1 with
  | some err =>
    simp only at hmem
    rw [hp1] at hmem
    exact absurd hmem (List.not_mem_nil crb)
  | none =>
    simp only at hmem
    have hcrbs : ∀ x ∈ (if b.clusterRoleBindings.length > 0 then
        parseCRBs ruleName b.name b.clusterRoleBindings lbls ownerRef p1
        else p1).clusterRoleBindings, x.labels = lbls := by
      intro x hx
      split at hx
      · rcases parseCRBs_mem ruleName b.name b.clusterRoleBindings lbls ownerRef
            p1 x hx with hin | ⟨_, hlbl, _, _⟩
        · rw [hp1] at hin
          exact absurd hin (List.not_mem_nil x)
        · exact hlbl
      · rw [hp1] at hx
        exact absurd hx (List.not_mem_nil x)
    rcases Nat.lt_or_ge 0 b.roleBindings.length with hlen | hlen
    · rw [if_pos hlen] at hmem
      have hpres := parseRBs_clusterRoleBindings cluster ruleName b.name lbls
        ownerRef b.roleBindings (if b.clusterRoleBindings.length > 0 then
          parseCRBs ruleName b.name b.clusterRoleBindings lbls ownerRef p1 else p1)
      rw [hpres] at hmem
      exact hcrbs crb hmem
    · rw [if_neg (Nat.not_lt.mpr hlen)] at hmem
      simp only at hmem
      exact hcrbs crb hmem

theorem applyOneBinding_newObjs (ruleName : String)
    (lbls : List (String × String)) (ownerRef : List String) (c : Cluster)
    (st : v1alpha1.RBACRuleStatus) (b : v1alpha1.Binding) :
    NewObjsLabelled c (applyOneBinding ruleName lbls ownerRef c st b).1 lbls := by
  unfold applyOneBinding
  exact NewObjsLabelled.trans
    (NewObjsLabelled.trans
      (applySubjects_newObjs lbls ownerRef _ c)
      (applyCRBs_newObjs lbls _
        (Parse_clusterRoleBindings_labels c.namespaces b lbls ownerRef ruleName) _ _))
    (applyRBs_newObjs lbls _
      (Parse_roleBindings_labels c.namespaces b lbls ownerRef ruleName) _ _)

theorem applyBindings_newObjs (ruleName : String)
    (lbls : List (String × String)) (ownerRef : List String)
    (bs : List v1alpha1.Binding) : ∀ (c : Cluster) (st : v1alpha1.RBACRuleStatus),
    NewObjsLabelled c (applyBindings ruleName lbls ownerRef c st bs).1 lbls := by
  induction bs with
  | nil => intro c st; exact NewObjsLabelled.rfl c lbls
  | cons b rest ih =>
    intro c st
    rw [applyBindings]
    exact NewObjsLabelled.trans
      (applyOneBinding_newObjs ruleName lbls ownerRef c st b) (ih _ _)

/-- On the non-deletion path the output cluster of `Reconcile` is
either the input cluster (start-time gate) or the result of the
bindings loop. -/
theorem Reconcile_cluster_cases (now : Nat) (c : Cluster)
    (rule : v1alpha1.RBACRule) (out : ReconcileOutput)
    (hdt : rule.deletionTimestamp = none)
    (h : Reconcile now c rule = some out) :
    out.cluster = c ∨
    out.cluster = (applyBindings (attachFinalizer rule).name
      [(RBACRuleLabel, (attachFinalizer rule).name)] [(attachFinalizer rule).name]
      c (attachFinalizer rule).status (attachFinalizer rule).spec.bindings).1 := by
  have hdt1 : (attachFinalizer rule).deletionTimestamp = none := by
    rw [attachFinalizer_deletionTimestamp, hdt]
  simp only [Reconcile, hdt1, ne_eq, not_true_eq_false, if_false,
    reduceCtorEq, ite_false] at h
  split at h
  · cases h
    exact Or.inl rfl
  · split at h
    · cases h
      exact Or.inr rfl
    · split at h
      · cases h
        exact Or.inr rfl
      · cases h
        exact Or.inr rfl

/-- Concrete scenario for claim C4: a rule whose binding references a
ServiceAccount subject in a namespace that does not exist yet, so
`checkNamespace` creates the namespace on demand. -/
def onDemandNsRule : v1alpha1.RBACRule :=
  { name := "r",
    spec := { endTime := 100, bindings := [{
        name := "b",
        subjects := [{
          kind := v1alpha1.SubjectType.serviceAccount, name := "sa",
          namespaces := ["ns1"] }],
        clusterRoleBindings := [{ clusterRole := "cr" }] }] } }

/-- Claim C4 counterexample: reconciling `onDemandNsRule` against an
empty cluster creates namespace `ns1` on demand with an owner
reference but an empty label map — the generated Namespace does not
carry the ownership label, so not every generated object carries
it. -/
theorem C4_namespace_unlabelled_counterexample :
    (Reconcile 5 {} onDemandNsRule).map (fun o => o.cluster.namespaces.map
        (fun n => (n.name, getLabel n.labels RBACRuleLabel, n.ownerReferences))) =
      some [("ns1", none, ["r"])] := by
  decide

/-- Claim C4 as amended: every ServiceAccount, RoleBinding and
ClusterRoleBinding generated by a non-deleting reconcile pass carries
the ownership label `RBACRuleLabel` with value equal to the owning
RBACRule's name (the rule is cluster-scoped, so the name identifies
it); on-demand Namespaces are excluded — they receive only an owner
reference. -/
theorem C4_generated_objects_labelled (now : Nat) (c : Cluster)
    (rule : v1alpha1.RBACRule) (out : ReconcileOutput)
    (hdt : rule.deletionTimestamp = none)
    (h : Reconcile now c rule = some out) :
    (∀ sa ∈ out.cluster.serviceAccounts, sa ∈ c.serviceAccounts ∨
      getLabel sa.labels RBACRuleLabel = some rule.name) ∧
    (∀ rb ∈ out.cluster.roleBindings, rb ∈ c.roleBindings ∨
      getLabel rb.labels RBACRuleLabel = some rule.name) ∧
    (∀ crb ∈ out.cluster.clusterRoleBindings, crb ∈ c.clusterRoleBindings ∨
      getLabel crb.labels RBACRuleLabel = some rule.name) := by
  have hname : (attachFinalizer rule).name = rule.name := attachFinalizer_name rule
  have hget : getLabel [(RBACRuleLabel, rule.name)] RBACRuleLabel =
      some rule.name := by
    simp [getLabel]
  have hnew : NewObjsLabelled c out.cluster [(RBACRuleLabel, rule.name)] := by
    rcases Reconcile_cluster_cases now c rule out hdt h with hc | hc
    · rw [hc]
      exact NewObjsLabelled.rfl c _
    · rw [hc, hname]
      exact applyBindings_newObjs rule.name [(RBACRuleLabel, rule.name)]
        [rule.name] (attachFinalizer rule).spec.bindings c
        (attachFinalizer rule).status
  refine ⟨fun x hx => ?_, fun x hx => ?_, fun x hx => ?_⟩
  · rcases hnew.1 x hx with hin | hl
    · exact Or.inl hin
    · exact Or.inr (hl ▸ hget)
  · rcases hnew.2.1 x hx with hin | hl
    · exact Or.inl hin
    · exact Or.inr (hl ▸ hget)
  · rcases hnew.2.2 x hx with hin | hl
    · exact Or.inl hin
    · exact Or.inr (hl ▸ hget)

/-- Witness for C4's amended theorem at the `onDemandNsRule`
scenario: the generated ServiceAccount and ClusterRoleBinding carry
the ownership label with the rule's name as value. -/
theorem C4_generated_objects_labelled_witness :
    onDemandNsRule.deletionTimestamp = none ∧
    (∃ out, Reconcile 5 {} onDemandNsRule = some out ∧
      ((∀ sa ∈ out.cluster.serviceAccounts, sa ∈ (({} : Cluster)).serviceAccounts ∨
        getLabel sa.labels RBACRuleLabel = some onDemandNsRule.name) ∧
      (∀ rb ∈ out.cluster.roleBindings, rb ∈ (({} : Cluster)).roleBindings ∨
        getLabel rb.labels RBACRuleLabel = some onDemandNsRule.name) ∧
      (∀ crb ∈ out.cluster.clusterRoleBindings,
        crb ∈ (({} : Cluster)).clusterRoleBindings ∨
        getLabel crb.labels RBACRuleLabel = some onDemandNsRule.name))) :=
  ⟨rfl, (Reconcile 5 {} onDemandNsRule).get (by decide), rfl,
    C4_generated_objects_labelled 5 {} onDemandNsRule _ rfl
      (Option.some_get (by decide)).symm⟩

/-- A cluster role binding with the given name is present in the
cluster. -/
def crbNamePresent (c : Cluster) (n : String) : Prop :=
  ∃ x ∈ c.clusterRoleBindings, x.name = n

theorem createCRB_names_present (c : Cluster) (crb : rbacv1.ClusterRoleBinding) :
    crbNamePresent (createCRB c crb) crb.name := by
  unfold createCRB crbNamePresent
  split
  · rename_i hex
    simp only [List.any_eq_true, decide_eq_true_eq] at hex
    obtain ⟨x, hx, hxname⟩ := hex
    refine ⟨crb, ?_, rfl⟩
    simp only [List.mem_map]
    exact ⟨x, hx, by rw [if_pos hxname]⟩
  · exact ⟨crb, List.mem_append_right _ (List.mem_singleton_self crb), rfl⟩

theorem createCRB_mono (c : Cluster) (crb : rbacv1.ClusterRoleBinding)
    (n : String) (h : crbNamePresent c n) :
    crbNamePresent (createCRB c crb) n := by
  obtain ⟨x, hx, hxname⟩ := h
  unfold createCRB crbNamePresent
  split
  · by_cases hkey : x.name = crb.name
    · refine ⟨crb, ?_, by rw [← hkey, hxname]⟩
      simp only [List.mem_map]
      exact ⟨x, hx, by rw [if_pos hkey]⟩
    · refine ⟨x, ?_, hxname⟩
      simp only [List.mem_map]
      exact ⟨x, hx, by rw [if_neg hkey]⟩
  · exact ⟨x, List.mem_append_left _ hx, hxname⟩

theorem checkNamespace_clusterRoleBindings (c : Cluster) (name : String)
    (ownerRef : List String) :
    (checkNamespace c name ownerRef).clusterRoleBindings = c.clusterRoleBindings := by
  unfold checkNamespace
  split <;> rfl

theorem createSA_clusterRoleBindings (c : Cluster) (name ns : String)
    (lbls : List (String × String)) (ownerRef : List String) :
    (createSA c name ns lbls ownerRef).clusterRoleBindings =
      c.clusterRoleBindings := by
  unfold createSA
  split <;> rfl

theorem createCR_clusterRoleBindings (c : Cluster) (rb : rbacv1.RoleBinding) :
    (createCR c rb).clusterRoleBindings = c.clusterRoleBindings := by
  unfold createCR
  split <;> rfl

theorem applySubjects_clusterRoleBindings (lbls : List (String × String))
    (ownerRef : List String) (subs : List rbacv1.Subject) : ∀ c : Cluster,
    (applySubjects lbls ownerRef c subs).clusterRoleBindings =
      c.clusterRoleBindings := by
  induction subs with
  | nil => intro c; rfl
  | cons s rest ih =>
    intro c
    rw [applySubjects]
    split
    · rw [ih, createSA_clusterRoleBindings, checkNamespace_clusterRoleBindings]
    · exact ih c

theorem applyRBs_clusterRoleBindings (rbs : List rbacv1.RoleBinding) :
    ∀ (c : Cluster) (st : List String),
    (applyRBs c st rbs).1.clusterRoleBindings = c.clusterRoleBindings := by
  induction rbs with
  | nil => intro c st; rfl
  | cons rb rest ih =>
    intro c st
    rw [applyRBs]
    rw [ih, createCR_clusterRoleBindings]

theorem applyCRBs_mono (crbs : List rbacv1.ClusterRoleBinding) (n : String) :
    ∀ (c : Cluster) (st : List String), crbNamePresent c n →
    crbNamePresent (applyCRBs c st crbs).1 n := by
  induction crbs with
  | nil => intro c st h; exact h
  | cons crb rest ih =>
    intro c st h
    rw [applyCRBs]
    exact ih _ _ (createCRB_mono c crb n h)

theorem applyCRBs_names_present (crbs : List rbacv1.ClusterRoleBinding) :
    ∀ (c : Cluster) (st : List String), ∀ crb ∈ crbs,
    crbNamePresent (applyCRBs c st crbs).1 crb.name := by
  induction crbs with
  | nil => intro c st crb h; exact absurd h (List.not_mem_nil crb)
  | cons head rest ih =>
    intro c st crb h
    rw [applyCRBs]
    rcases List.mem_cons.mp h with heq | htail
    · subst heq
      exact applyCRBs_mono rest crb.name _ _ (createCRB_names_present c crb)
    · exact ih _ _ crb htail

theorem crbNamePresent_of_eqList {c c' : Cluster} (n : String)
    (heq : c'.clusterRoleBindings = c.clusterRoleBindings)
    (h : crbNamePresent c n) : crbNamePresent c' n := by
  unfold crbNamePresent at h ⊢
  rw [heq]
  exact h

theorem applyOneBinding_parse_crbs_present (ruleName : String)
    (lbls : List (String × String)) (ownerRef : List String) (c : Cluster)
    (st : v1alpha1.RBACRuleStatus) (b : v1alpha1.Binding) :
    ∀ crb ∈ (Parse c.namespaces b lbls ownerRef ruleName {}).1.clusterRoleBindings,
    crbNamePresent (applyOneBinding ruleName lbls ownerRef c st b).1 crb.name := by
  intro crb hmem
  unfold applyOneBinding
  apply crbNamePresent_of_eqList crb.name (applyRBs_clusterRoleBindings _ _ _)
  exact applyCRBs_names_present _ _ _ crb hmem

theorem applyOneBinding_mono (ruleName : String)
    (lbls : List (String × String)) (ownerRef : List String) (c : Cluster)
    (st : v1alpha1.RBACRuleStatus) (b : v1alpha1.Binding) (n : String)
    (h : crbNamePresent c n) :
    crbNamePresent (applyOneBinding ruleName lbls ownerRef c st b).1 n := by
  unfold applyOneBinding
  apply crbNamePresent_of_eqList n (applyRBs_clusterRoleBindings _ _ _)
  apply applyCRBs_mono
  apply crbNamePresent_of_eqList n (applySubjects_clusterRoleBindings _ _ _ _)
  exact h

theorem applyBindings_mono (ruleName : String) (lbls : List (String × String))
    (ownerRef : List String) (bs : List v1alpha1.Binding) (n : String) :
    ∀ (c : Cluster) (st : v1alpha1.RBACRuleStatus), crbNamePresent c n →
    crbNamePresent (applyBindings ruleName lbls ownerRef c st bs).1 n := by
  induction bs with
  | nil => intro c st h; exact h
  | cons b rest ih =>
    intro c st h
    rw [applyBindings]
    exact ih _ _ (applyOneBinding_mono ruleName lbls ownerRef c st b n h)

theorem applyBindings_append (ruleName : String) (lbls : List (String × String))
    (ownerRef : List String) (l1 l2 : List v1alpha1.Binding) :
    ∀ (c : Cluster) (st : v1alpha1.RBACRuleStatus),
    applyBindings ruleName lbls ownerRef c st (l1 ++ l2) =
      applyBindings ruleName lbls ownerRef
        (applyBindings ruleName lbls ownerRef c st l1).1
        (applyBindings ruleName lbls ownerRef c st l1).2 l2 := by
  induction l1 with
  | nil => intro c st; rfl
  | cons b rest ih =>
    intro c st
    rw [List.cons_append, applyBindings, applyBindings]
    exact ih _ _

/-- Concrete scenario for claim C8: a binding whose cluster role
binding declaration is valid but whose role binding declaration
carries a malformed label selector, so `parseRBs` fails after
`parseCRBs` already ran. -/
def partialBinding : v1alpha1.Binding :=
  { name := "b",
    clusterRoleBindings := [{ clusterRole := "c" }],
    roleBindings := [{
      role := "rr",
      nameSpaceSelector := { matchExpressions := [{
        key := "k", op := SelOp.opInvalid, values := [] }] } }] }

/-- The rule holding `partialBinding` for claim C8's counterexample. -/
def partialRule : v1alpha1.RBACRule :=
  { name := "r", spec := { endTime := 100, bindings := [partialBinding] } }

/-- Claim C8 counterexample: parsing `partialBinding` fails (malformed
selector in its role bindings), yet `Reconcile` still applies the
binding's already-expanded ClusterRoleBinding to the cluster — it is
false that no objects from the failed binding are applied. -/
theorem C8_partial_application_counterexample :
    (Parse [] partialBinding [] [] "r" {}).2 ≠ none ∧
    (Reconcile 5 {} partialRule).map (fun o =>
        o.cluster.clusterRoleBindings.map (fun x => x.name)) =
      some ["r-b-ClusterRole-c"] := by
  constructor <;> decide

/-- Claim C8 as amended: when one binding's parse fails, the
reconcile loop still proceeds to the remaining bindings exactly as if
the failure had not happened (the failure is only logged), and the
failed binding's partially expanded objects are applied: every
cluster role binding the parser produced before failing is present in
the final cluster, surviving the processing of all later bindings. -/
theorem C8_best_effort_across_bindings (ruleName : String)
    (lbls : List (String × String)) (ownerRef : List String) (c : Cluster)
    (st : v1alpha1.RBACRuleStatus) (pre post : List v1alpha1.Binding)
    (b : v1alpha1.Binding)
    (_hfail : (Parse (applyBindings ruleName lbls ownerRef c st pre).1.namespaces
      b lbls ownerRef ruleName {}).2 ≠ none) :
    applyBindings ruleName lbls ownerRef c st (pre ++ b :: post) =
      applyBindings ruleName lbls ownerRef
        (applyOneBinding ruleName lbls ownerRef
          (applyBindings ruleName lbls ownerRef c st pre).1
          (applyBindings ruleName lbls ownerRef c st pre).2 b).1
        (applyOneBinding ruleName lbls ownerRef
          (applyBindings ruleName lbls ownerRef c st pre).1
          (applyBindings ruleName lbls ownerRef c st pre).2 b).2 post ∧
    ∀ crb ∈ (Parse (applyBindings ruleName lbls ownerRef c st pre).1.namespaces
        b lbls ownerRef ruleName {}).1.clusterRoleBindings,
      crbNamePresent (applyBindings ruleName lbls ownerRef c st
        (pre ++ b :: post)).1 crb.name := by
  have happ := applyBindings_append ruleName lbls ownerRef pre (b :: post) c st
  constructor
  · rw [happ, applyBindings]
  · intro crb hmem
    rw [happ, applyBindings]
    exact applyBindings_mono ruleName lbls ownerRef post crb.name _ _
      (applyOneBinding_parse_crbs_present ruleName lbls ownerRef _ _ b crb hmem)

/-- A well-formed second binding for C8's witness. -/
def healthyBinding : v1alpha1.Binding :=
  { name := "b2", clusterRoleBindings := [{ clusterRole := "c2" }] }

/-- Witness for C8's amended theorem: with the failing
`partialBinding` first and `healthyBinding` after it, the failed
binding's ClusterRoleBinding is still present in the final cluster. -/
theorem C8_best_effort_across_bindings_witness :
    ((Parse (applyBindings "r" [] [] {} {} []).1.namespaces partialBinding
        [] [] "r" {}).2 ≠ none) ∧
    (applyBindings "r" [] [] {} {} ([] ++ partialBinding :: [healthyBinding]) =
      applyBindings "r" [] []
        (applyOneBinding "r" [] [] (applyBindings "r" [] [] {} {} []).1
          (applyBindings "r" [] [] {} {} []).2 partialBinding).1
        (applyOneBinding "r" [] [] (applyBindings "r" [] [] {} {} []).1
          (applyBindings "r" [] [] {} {} []).2 partialBinding).2 [healthyBinding] ∧
    ∀ crb ∈ (Parse (applyBindings "r" [] [] {} {} []).1.namespaces partialBinding
        [] [] "r" {}).1.clusterRoleBindings,
      crbNamePresent (applyBindings "r" [] [] {} {}
        ([] ++ partialBinding :: [healthyBinding])).1 crb.name) :=
  ⟨by decide,
    C8_best_effort_across_bindings "r" [] [] {} {} [] [healthyBinding]
      partialBinding (by decide)⟩

end RbacController
